import Mathlib

/-!
Verification development for the liver-tumor segmentation service
(`server/main.py`): a FastAPI endpoint that accepts a 2-D image (PNG/JPEG)
or a 3-D NIfTI volume, normalizes it, extracts the middle slice, runs an
opaque U-Net inference function, thresholds the output, resizes the binary
mask back to the input resolution, and composites a red overlay.

Modelling conventions:
* numpy arrays are nested lists over `ℚ` (exact rational arithmetic stands
  in for IEEE float arithmetic; the constant `1e-8` is the exact rational
  `1/100000000`); 8-bit grayscale images are nested lists over `ℕ`.
* the trained network is an opaque parameter `net : Mat → Mat`
  (spec: logits in, logits out, shape-preserving at the model resolution);
  the process-global `model` is `Option (Mat → Mat)`, `none` when the
  checkpoint failed to load.
* the filesystem visible to `load_nifti_bytes` is the list of existing
  temporary-file paths, threaded explicitly.
* external codecs (PIL decode, nibabel decode) are parameters returning
  `Except String _`, mirroring "decode or raise".
-/

namespace LiverSeg

/-- A 2-D float array (numpy `float` 2-D array), row major. -/
abbrev Mat : Type := List (List ℚ)

/-- A 2-D 8-bit grayscale image (numpy `uint8` 2-D array). -/
abbrev GrayImage : Type := List (List ℕ)

/-- A 3-D float volume, indexed `[row][col][z]` (numpy axes 0, 1, 2). -/
abbrev Vol : Type := List (List (List ℚ))

/-- An n-dimensional numpy array as its shape plus row-major flat data
(used by the NIfTI loader, whose arrays may be 3-D or degenerate 4-D). -/
structure NDArray where
  shape : List ℕ
  data : List ℚ
deriving DecidableEq

/-- Element access in a 2-D array: `m[i][j]`, `none` when out of range. -/
def get2 {α : Type} (m : List (List α)) (i j : ℕ) : Option α :=
  m[i]?.bind (fun row => row[j]?)

/-- Element access in a 3-D array: `v[i][j][k]`, `none` when out of range. -/
def get3 (v : Vol) (i j k : ℕ) : Option ℚ :=
  (v[i]?.bind (fun p => p[j]?)).bind (fun col => col[k]?)

/-- All elements of a 2-D array in row-major order (`numpy.ravel`). -/
def flat2 {α : Type} (m : List (List α)) : List α := m.flatten

/-- All elements of a 3-D array in row-major order (`numpy.ravel`). -/
def flat3 (v : Vol) : List ℚ := v.flatten.flatten

/-- Map a function over every element of a 3-D array. -/
def map3 (f : ℚ → ℚ) (v : Vol) : Vol := v.map (fun p => p.map (fun c => c.map f))

/-- `arr.min()` for a nonempty numpy array given as its raveled list
(junk value `0` on the empty array, where numpy raises instead). -/
def listMin : List ℚ → ℚ
  | [] => 0
  | x :: xs => xs.foldl min x

/-- `arr.max()` for a nonempty numpy array given as its raveled list
(junk value `0` on the empty array, where numpy raises instead). -/
def listMax : List ℚ → ℚ
  | [] => 0
  | x :: xs => xs.foldl max x

/-- `np.clip(x, -1000, 400)` on one scalar: clamp into the clinical
Hounsfield window. -/
def clipHU (x : ℚ) : ℚ := min (max x (-1000)) 400

/-- The `1e-8` guard of `normalize_volume`, as an exact rational. -/
def epsQ : ℚ := 1 / 100000000

/-- `np.clip(volume, -1000, 400)` (line 43 of `server/main.py`). -/
def clipVol (v : Vol) : Vol := map3 clipHU v

/-- `volume.min()` over a 3-D array. -/
def volMin (v : Vol) : ℚ := listMin (flat3 v)

/-- `volume.max()` over a 3-D array. -/
def volMax (v : Vol) : ℚ := listMax (flat3 v)

/-- `normalize_volume` (lines 42-45): clip to `[-1000, 400]`, then
min-max scale with the `1e-8` guard; min and max are taken over the
clipped array.  (`astype(np.float32)` is the identity in the exact model.) -/
def normalize_volume (v : Vol) : Vol :=
  let c := clipVol v
  map3 (fun x => (x - volMin c) / (volMax c - volMin c + epsQ)) c

/-- The 2-D image path's normalization (line 205):
`image_array_uint8.astype(np.float32) / 255.0`. -/
def normalize2D (img : GrayImage) : Mat :=
  img.map (fun row => row.map (fun (p : ℕ) => (p : ℚ) / 255))

section ListLemmas

theorem foldl_min_le_init (xs : List ℚ) (a : ℚ) : xs.foldl min a ≤ a := by
  induction xs generalizing a with
  | nil => exact le_refl a
  | cons x xs ih =>
      exact le_trans (ih (min a x)) (min_le_left a x)

theorem foldl_min_le_mem (xs : List ℚ) : ∀ (a x : ℚ), x ∈ xs → xs.foldl min a ≤ x := by
  induction xs with
  | nil => intro a x hx; cases hx
  | cons y ys ih =>
      intro a x hx
      rcases List.mem_cons.mp hx with h | h
      · subst h
        exact le_trans (foldl_min_le_init ys (min a x)) (min_le_right a x)
      · exact ih (min a y) x h

theorem init_le_foldl_max (xs : List ℚ) (a : ℚ) : a ≤ xs.foldl max a := by
  induction xs generalizing a with
  | nil => exact le_refl a
  | cons x xs ih =>
      exact le_trans (le_max_left a x) (ih (max a x))

theorem mem_le_foldl_max (xs : List ℚ) : ∀ (a x : ℚ), x ∈ xs → x ≤ xs.foldl max a := by
  induction xs with
  | nil => intro a x hx; cases hx
  | cons y ys ih =>
      intro a x hx
      rcases List.mem_cons.mp hx with h | h
      · subst h
        exact le_trans (le_max_right a x) (init_le_foldl_max ys (max a x))
      · exact ih (max a y) x h

theorem le_foldl_min (xs : List ℚ) : ∀ (a y : ℚ), y ≤ a → (∀ x ∈ xs, y ≤ x) →
    y ≤ xs.foldl min a := by
  induction xs with
  | nil => intro a y ha _; simpa using ha
  | cons z zs ih =>
      intro a y ha h
      exact ih (min a z) y (le_min ha (h z (List.mem_cons_self z zs)))
        (fun x hx => h x (List.mem_cons_of_mem z hx))

theorem foldl_max_le (xs : List ℚ) : ∀ (a y : ℚ), a ≤ y → (∀ x ∈ xs, x ≤ y) →
    xs.foldl max a ≤ y := by
  induction xs with
  | nil => intro a y ha _; simpa using ha
  | cons z zs ih =>
      intro a y ha h
      exact ih (max a z) y (max_le ha (h z (List.mem_cons_self z zs)))
        (fun x hx => h x (List.mem_cons_of_mem z hx))

theorem listMin_le_mem (l : List ℚ) (x : ℚ) (hx : x ∈ l) : listMin l ≤ x := by
  cases l with
  | nil => cases hx
  | cons y ys =>
      rcases List.mem_cons.mp hx with h | h
      · subst h; exact foldl_min_le_init ys x
      · exact foldl_min_le_mem ys y x h

theorem mem_le_listMax (l : List ℚ) (x : ℚ) (hx : x ∈ l) : x ≤ listMax l := by
  cases l with
  | nil => cases hx
  | cons y ys =>
      rcases List.mem_cons.mp hx with h | h
      · subst h; exact init_le_foldl_max ys x
      · exact mem_le_foldl_max ys y x h

theorem listMin_const (l : List ℚ) (c : ℚ) (hne : l ≠ [])
    (hc : ∀ x ∈ l, x = c) : listMin l = c := by
  cases l with
  | nil => exact absurd rfl hne
  | cons y ys =>
      have hy : y = c := hc y (List.mem_cons_self y ys)
      subst hy
      have h1 : listMin (y :: ys) ≤ y := listMin_le_mem _ y (List.mem_cons_self y ys)
      have h2 : ∀ x ∈ ys, y ≤ x := fun x hx => le_of_eq (hc x (List.mem_cons_of_mem y hx)).symm
      have h3 : y ≤ listMin (y :: ys) := le_foldl_min ys y y (le_refl y) h2
      exact le_antisymm h1 h3

theorem listMax_const (l : List ℚ) (c : ℚ) (hne : l ≠ [])
    (hc : ∀ x ∈ l, x = c) : listMax l = c := by
  cases l with
  | nil => exact absurd rfl hne
  | cons y ys =>
      have hy : y = c := hc y (List.mem_cons_self y ys)
      subst hy
      have h1 : y ≤ listMax (y :: ys) := mem_le_listMax _ y (List.mem_cons_self y ys)
      have h2 : ∀ x ∈ ys, x ≤ y := fun x hx => le_of_eq (hc x (List.mem_cons_of_mem y hx))
      have h3 : listMax (y :: ys) ≤ y := foldl_max_le ys y y (le_refl y) h2
      exact le_antisymm h3 h1

theorem flat3_map3 (f : ℚ → ℚ) (v : Vol) : flat3 (map3 f v) = (flat3 v).map f := by
  simp [flat3, map3, List.map_flatten]

theorem get3_map3 (f : ℚ → ℚ) (v : Vol) (i j k : ℕ) :
    get3 (map3 f v) i j k = (get3 v i j k).map f := by
  simp only [get3, map3, List.getElem?_map]
  cases v[i]? with
  | none => rfl
  | some p =>
      simp only [Option.map_some', Option.some_bind, List.getElem?_map]
      cases p[j]? with
      | none => rfl
      | some col =>
          simp only [Option.map_some', Option.some_bind, List.getElem?_map]

theorem mem_flat3_of_get3 (v : Vol) (i j k : ℕ) (x : ℚ)
    (h : get3 v i j k = some x) : x ∈ flat3 v := by
  simp only [get3, Option.bind_eq_some] at h
  obtain ⟨col, ⟨p, hp, hj⟩, hk⟩ := h
  have hpm : p ∈ v := List.getElem?_mem hp
  have hcm : col ∈ p := List.getElem?_mem hj
  have hxm : x ∈ col := List.getElem?_mem hk
  simp only [flat3, List.mem_flatten]
  exact ⟨col, ⟨p, hpm, hcm⟩, hxm⟩

end ListLemmas

/-! ## Inference adapter (`run_model`, lines 157-186) -/

/-- Number of rows of a 2-D array (`arr.shape[0]`). -/
def matRows {α : Type} (m : List (List α)) : ℕ := m.length

/-- Number of columns of a 2-D array (`arr.shape[1]`, rectangular arrays). -/
def matCols {α : Type} (m : List (List α)) : ℕ := (m.headD []).length

/-- Pixel fetch with clamping already done by the caller; out-of-range
reads (outside the numpy domain) default to `0`. -/
def pix (m : Mat) (i j : ℕ) : ℚ := ((m[i]?.getD [])[j]?).getD 0

/-- Clamp a source coordinate into `[0, n-1]`. -/
def clampIdx (n : ℕ) (i : ℤ) : ℕ := min (n - 1) (max 0 i).toNat

/-- Models `img_pil.resize((w, h), Image.BILINEAR)` (line 168): bilinear
interpolation at pixel centers, in exact rational arithmetic (PIL's
fixed-point rounding and down-scale antialias filter widths are
abstracted; no claim depends on the interpolated values, only on the
resulting 224×224 grid fed to the opaque network). -/
def resizeBilinear (m : Mat) (h w : ℕ) : Mat :=
  let sh := matRows m
  let sw := matCols m
  (List.range h).map (fun i => (List.range w).map (fun j =>
    let sy : ℚ := (((i : ℚ) + 1/2) * sh) / h - 1/2
    let sx : ℚ := (((j : ℚ) + 1/2) * sw) / w - 1/2
    let y0 : ℤ := ⌊sy⌋
    let x0 : ℤ := ⌊sx⌋
    let fy : ℚ := sy - y0
    let fx : ℚ := sx - x0
    let p00 := pix m (clampIdx sh y0) (clampIdx sw x0)
    let p01 := pix m (clampIdx sh y0) (clampIdx sw (x0 + 1))
    let p10 := pix m (clampIdx sh (y0 + 1)) (clampIdx sw x0)
    let p11 := pix m (clampIdx sh (y0 + 1)) (clampIdx sw (x0 + 1))
    (1 - fy) * ((1 - fx) * p00 + fx * p01) + fy * ((1 - fx) * p10 + fx * p11)))

/-- PIL NEAREST source index: destination pixel `j` of `dst` samples source
index `⌊(j + 1/2) · src / dst⌋` (always in range for `j < dst`). -/
def nearestIdx (dst src j : ℕ) : ℕ := ((2 * j + 1) * src) / (2 * dst)

/-- Models `Image.fromarray(mask).resize((w, h), Image.NEAREST)`
(lines 182-184): every output pixel is a copy of one source pixel. -/
def resizeNearest (m : Mat) (h w : ℕ) : Mat :=
  let sh := matRows m
  let sw := matCols m
  (List.range h).map (fun i => (List.range w).map (fun j =>
    pix m (nearestIdx h sh i) (nearestIdx w sw j)))

/-- `(torch.sigmoid(output) > 0.5).float()` (lines 177-178): the sigmoid is
strictly increasing with `sigmoid 0 = 1/2`, so the comparison of the
probability with `0.5` is exactly the comparison of the logit with `0`. -/
def thresholdMask (logits : Mat) : Mat :=
  logits.map (fun row => row.map (fun x => if 0 < x then (1 : ℚ) else 0))

/-- `run_model` (lines 157-186), with the loaded network as an explicit
parameter: resize the slice to 224×224 (bilinear), run the opaque network,
sigmoid + threshold at 0.5, and resize the binary mask back to
`original_shape = (h, w)` with NEAREST interpolation. -/
def run_model (net : Mat → Mat) (slice_array : Mat) (h w : ℕ) : Mat :=
  resizeNearest (thresholdMask (net (resizeBilinear slice_array 224 224))) h w

/-- `RuntimeError("Model is not loaded.")` message (line 165). -/
def msgModelNotLoaded : String := "Model is not loaded."

/-- `run_model` together with its model-presence guard (lines 164-165):
raises `RuntimeError("Model is not loaded.")` when the global model
reference is `None`, and never falls back to a placeholder mask. -/
def run_modelE (model : Option (Mat → Mat)) (slice_array : Mat) (h w : ℕ) :
    Except String Mat :=
  match model with
  | none => .error msgModelNotLoaded
  | some net => .ok (run_model net slice_array h w)

/-! ## Slice selector (lines 231-234) -/

/-- `vol_norm.shape[2]`: the extent of the third axis (rectangular arrays;
read off the first column of the first row). -/
def volShape2 (v : Vol) : ℕ := ((v.headD []).headD []).length

/-- `middle_slice_index = z_dim // 2` (line 232). -/
def middle_slice_index (z_dim : ℕ) : ℕ := z_dim / 2

/-- `vol_norm[:, :, middle_slice_index]` (lines 231-233). -/
def midSlice (v : Vol) : Mat :=
  let k := middle_slice_index (volShape2 v)
  v.map (fun p => p.map (fun col => col[k]?.getD 0))

/-! ## Overlay compositor (lines 209-212 and 240-242) -/

/-- `np.stack([gray] * 3, axis=-1)` followed by
`overlay_image[mask == 1] = [255, 0, 0]`, pixelwise: the RGB triple
`(255, 0, 0)` where the mask equals `1`, the replicated gray value
everywhere else. -/
def compositeOverlay (gray : GrayImage) (mask : Mat) : List (List (ℕ × ℕ × ℕ)) :=
  (List.range gray.length).map (fun i =>
    (List.range ((gray[i]?.getD []).length)).map (fun j =>
      let g := ((gray[i]?.getD [])[j]?).getD 0
      if ((mask[i]?.getD [])[j]?).getD 0 = 1 then (255, 0, 0) else (g, g, g)))

/-- `(x * 255).astype(np.uint8)` (line 238): truncate and wrap modulo 256
(the inputs here are nonnegative normalized values). -/
def toUint8 (x : ℚ) : ℕ := (max 0 ⌊x * 255⌋).toNat % 256

/-! ## Volume loader (`load_nifti_bytes`, lines 20-40) -/

/-- `np.squeeze`: drop every axis of extent 1; the row-major data is
unchanged. -/
def NDArray.squeeze (a : NDArray) : NDArray :=
  ⟨a.shape.filter (fun n => n != 1), a.data⟩

/-- `load_nifti_bytes` (lines 20-40).  The filesystem is modelled as the
list of existing temporary-file paths; `fresh` is the path that
`NamedTemporaryFile(delete=False)` creates and writes the upload to.  The
body decodes it (`nib.load` + `np.asanyarray`, passed in as the external
codec `decode`), squeezes 4-D arrays, and the `finally` block removes the
temporary file when it exists — on the success and the failure path alike. -/
def load_nifti_bytes (decode : List ℕ → Except String NDArray)
    (data : List ℕ) (fresh : String) (fs : List String) :
    Except String NDArray × List String :=
  let fs1 := fresh :: fs
  let result : Except String NDArray :=
    match decode data with
    | .ok arr => .ok (if arr.shape.length == 4 then arr.squeeze else arr)
    | .error e => .error e
  let fs2 := if fs1.contains fresh then fs1.erase fresh else fs1
  (result, fs2)

/-- Split a flat row-major list into consecutive chunks of length `n`. -/
def chunkList {α : Type} (n : ℕ) (l : List α) : List (List α) :=
  match l with
  | [] => []
  | x :: xs =>
      if h : n = 0 then []
      else (x :: xs).take n :: chunkList n ((x :: xs).drop n)
termination_by l.length
decreasing_by
  simp only [List.length_drop, List.length_cons]
  omega

/-- View row-major flat data of a `(r, c, d)` numpy array as a nested
3-D array. -/
def reshape3 (c d : ℕ) (data : List ℚ) : Vol :=
  (chunkList (c * d) data).map (chunkList d)

/-! ## The endpoint (`predict_slice`, lines 191-261) -/

/-- `fastapi.HTTPException(status_code, detail)`. -/
structure HTTPException where
  status_code : ℕ
  detail : String
deriving DecidableEq

/-- The JSON success payload, held at the array level (PNG/base64
serialization is an external codec, out of scope per the spec). -/
inductive PredictResponse
  | twoD (original_image : GrayImage) (mask : Mat)
      (overlay : List (List (ℕ × ℕ × ℕ)))
  | volumetric (image : GrayImage) (mask : Mat)
      (overlay : List (List (ℕ × ℕ × ℕ)))
deriving DecidableEq

/-- `filename.lower()` on the code points of the name. -/
def lowerName (s : String) : List Char := s.data.map Char.toLower

/-- Python `filename.lower().endswith(pat)` for an ASCII lowercase
pattern `pat`. -/
def endsWithLower (filename pat : String) : Bool :=
  pat.data.isSuffixOf (lowerName filename)

def extPng : String := ".png"

def extJpg : String := ".jpg"

def extJpeg : String := ".jpeg"

def extNii : String := ".nii"

def extNiiGz : String := ".nii.gz"

def msgModelUnavailable : String := "Model service is currently unavailable."

def msgInvalidType : String := "Invalid file type. Only PNG, JPG, NII, or NII.GZ are supported."

def msg2DHead : String := "Error processing 2D image: "

def msgNiftiHead : String := "Error processing NIfTI file: "

/-- Message standing for the `IndexError`/`ValueError` Python raises when a
decoded NIfTI array is not 3-dimensional (e.g. `vol_norm.shape[2]` on a
2-D array); it is caught by the same `except` clause. -/
def msgBadShape : String := "volume is not 3-dimensional"

/-- The 2-D branch of `predict_slice` (lines 199-224), after the image
codec decoded the upload to a grayscale `uint8` array:
`original_shape = pil_image.size[::-1]`, normalize by `/ 255.0`, run the
model, composite the overlay. -/
def pipeline2D (net : Mat → Mat) (img : GrayImage) : Except String PredictResponse :=
  let original_shape := (img.length, (img.headD []).length)
  let image_array_norm := normalize2D img
  match run_modelE (some net) image_array_norm original_shape.1 original_shape.2 with
  | .error e => .error e
  | .ok mask => .ok (.twoD img mask (compositeOverlay img mask))

/-- The volumetric branch of `predict_slice` (lines 228-252), after
`load_nifti_bytes` produced the raw array: normalize the whole volume,
select the middle slice along axis 2, record its shape, run the model,
composite the overlay on the `uint8` rendering of the slice. -/
def pipelineVol (net : Mat → Mat) (arr : NDArray) : Except String PredictResponse :=
  match arr.shape with
  | [_, c, d] =>
      let vol := reshape3 c d arr.data
      let vol_norm := normalize_volume vol
      let mid_slice_norm := midSlice vol_norm
      let original_shape := (mid_slice_norm.length, (mid_slice_norm.headD []).length)
      match run_modelE (some net) mid_slice_norm original_shape.1 original_shape.2 with
      | .error e => .error e
      | .ok mask =>
          let mid_uint8 := mid_slice_norm.map (fun row => row.map toUint8)
          .ok (.volumetric mid_uint8 mask (compositeOverlay mid_uint8 mask))
  | _ => .error msgBadShape

/-- `predict_slice` (lines 191-261).  The process-global model, the two
external codecs, and the filesystem are explicit parameters; the result is
the HTTP outcome paired with the filesystem after the request. -/
def predict_slice (model : Option (Mat → Mat))
    (decodeImage : List ℕ → Except String GrayImage)
    (decodeNifti : List ℕ → Except String NDArray)
    (filename : String) (data : List ℕ) (fresh : String) (fs : List String) :
    Except HTTPException PredictResponse × List String :=
  match model with
  | none => (.error ⟨503, msgModelUnavailable⟩, fs)
  | some net =>
      if endsWithLower filename extPng || endsWithLower filename extJpg ||
          endsWithLower filename extJpeg then
        match decodeImage data with
        | .error e => (.error ⟨500, msg2DHead ++ e⟩, fs)
        | .ok img =>
            match pipeline2D net img with
            | .error e => (.error ⟨500, msg2DHead ++ e⟩, fs)
            | .ok resp => (.ok resp, fs)
      else if endsWithLower filename extNii || endsWithLower filename extNiiGz then
        match load_nifti_bytes decodeNifti data fresh fs with
        | (.error e, fs1) => (.error ⟨500, msgNiftiHead ++ e⟩, fs1)
        | (.ok arr, fs1) =>
            match pipelineVol net arr with
            | .error e => (.error ⟨500, msgNiftiHead ++ e⟩, fs1)
            | .ok resp => (.ok resp, fs1)
      else
        (.error ⟨400, msgInvalidType⟩, fs)

/-! ## Auxiliary lemmas about the pipeline pieces -/

theorem flat2_map {α β : Type} (f : α → β) (m : List (List α)) :
    flat2 (m.map (fun row => row.map f)) = (flat2 m).map f := by
  simp [flat2, List.map_flatten]

theorem thresholdMask_pix (logits : Mat) (a b : ℕ) :
    pix (thresholdMask logits) a b = 0 ∨ pix (thresholdMask logits) a b = 1 := by
  simp only [pix, thresholdMask, List.getElem?_map]
  cases logits[a]? with
  | none => left; rfl
  | some row =>
      simp only [Option.map_some', Option.getD_some, List.getElem?_map]
      cases row[b]? with
      | none => left; rfl
      | some x =>
          simp only [Option.map_some', Option.getD_some]
          by_cases hx : 0 < x
      <;> simp [hx]

theorem length_filter_ne_one (l : List ℕ) :
    (l.filter (fun n => n != 1)).length = l.length - l.count 1 := by
  induction l with
  | nil => rfl
  | cons x xs ih =>
      have hle : xs.count 1 ≤ xs.length := List.count_le_length 1 xs
      by_cases hx : x = 1
      · subst hx
        rw [List.filter_cons_of_neg (by decide), List.count_cons_self,
          List.length_cons, ih]
        omega
      · rw [List.filter_cons_of_pos (by simpa using hx),
          List.count_cons_of_ne (fun hh => hx hh.symm), List.length_cons,
          List.length_cons, ih]
        omega

/-! ## The claims -/

/-- C2: for every volumetric input whose normalized array has depth `D`
along axis 2, the slice selected for inference is exactly the one at index
`D / 2` (floor division), including `D = 1 ↦ 0` and `D = 2 ↦ 1`; the
selection is the pure index computation `z_dim // 2`, no other heuristic. -/
theorem c2_middle_slice_selection (v : Vol) (D i j : ℕ) (hD : 0 < D)
    (hshape : volShape2 v = D)
    (hwf : ∀ p ∈ v, ∀ col ∈ p, col.length = D)
    (hij : (v[i]?.bind (fun p => p[j]?)).isSome = true) :
    middle_slice_index D = D / 2 ∧
    middle_slice_index 1 = 0 ∧ middle_slice_index 2 = 1 ∧
    get2 (midSlice v) i j = get3 v i j (D / 2) := by
  refine ⟨rfl, rfl, rfl, ?_⟩
  simp only [get2, get3, midSlice, hshape, List.getElem?_map]
  cases hvi : v[i]? with
  | none => simp [hvi] at hij
  | some p =>
      have hpm : p ∈ v := List.getElem?_mem hvi
      simp only [Option.map_some', Option.some_bind, List.getElem?_map]
      cases hpj : p[j]? with
      | none => simp [hvi, hpj] at hij
      | some col =>
          have hcm : col ∈ p := List.getElem?_mem hpj
          have hlen : col.length = D := hwf p hpm col hcm
          have hk : D / 2 < col.length := by
            rw [hlen]; exact Nat.div_lt_self hD (by norm_num)
          simp only [Option.map_some', Option.some_bind, middle_slice_index]
          rw [List.getElem?_eq_getElem hk]
          rfl

/-- Witness for C2 at the concrete volume `[[[5, 7]]]` of depth 2. -/
theorem c2_middle_slice_selection_witness :
    middle_slice_index 2 = 1 ∧
    get2 (midSlice [[[ (5 : ℚ), 7 ]]]) 0 0 = get3 [[[ (5 : ℚ), 7 ]]] 0 0 1 :=
  ⟨(c2_middle_slice_selection [[[ (5 : ℚ), 7 ]]] 2 0 0 (by decide) (by decide)
      (by decide) (by decide)).2.2.1,
   (c2_middle_slice_selection [[[ (5 : ℚ), 7 ]]] 2 0 0 (by decide) (by decide)
      (by decide) (by decide)).2.2.2⟩

/-- C3: `normalize_volume v` equals, elementwise, the result of first
clipping `v` to the window `[-1000, 400]` and then scaling via
`(x - min) / (max - min + 1e-8)`, where min and max are taken over the
clipped array. -/
theorem c3_normalize_volume_formula (v : Vol) (i j k : ℕ)
    (hne : flat3 v ≠ []) :
    get3 (normalize_volume v) i j k =
      (get3 v i j k).map (fun x =>
        (clipHU x - volMin (clipVol v)) /
          (volMax (clipVol v) - volMin (clipVol v) + epsQ)) := by
  simp only [normalize_volume]
  rw [get3_map3]
  simp only [clipVol]
  rw [get3_map3]
  cases get3 v i j k <;> rfl

/-- Witness for C3 at the concrete one-voxel volume `[[[500]]]`. -/
theorem c3_normalize_volume_formula_witness :
    get3 (normalize_volume [[[ (500 : ℚ) ]]]) 0 0 0 =
      (get3 [[[ (500 : ℚ) ]]] 0 0 0).map (fun x =>
        (clipHU x - volMin (clipVol [[[ (500 : ℚ) ]]])) /
          (volMax (clipVol [[[ (500 : ℚ) ]]]) - volMin (clipVol [[[ (500 : ℚ) ]]]) + epsQ)) :=
  c3_normalize_volume_formula [[[ (500 : ℚ) ]]] 0 0 0 (by decide)

/-- C6: when the model handle is `None`, the endpoint answers HTTP 503 with
detail "Model service is currently unavailable.", and `run_model` itself
raises (`RuntimeError`) instead of falling back to a placeholder mask. -/
theorem c6_model_unavailable
    (decodeImage : List ℕ → Except String GrayImage)
    (decodeNifti : List ℕ → Except String NDArray)
    (filename : String) (data : List ℕ) (fresh : String) (fs : List String)
    (slice_array : Mat) (h w : ℕ) :
    (predict_slice none decodeImage decodeNifti filename data fresh fs).1 =
      .error ⟨503, msgModelUnavailable⟩ ∧
    run_modelE none slice_array h w = .error msgModelNotLoaded :=
  ⟨rfl, rfl⟩

/-- C7: the temporary file materialized for the NIfTI codec is removed on
every exit path of `load_nifti_bytes` — for an arbitrary decode outcome
(success or failure alike) the filesystem is restored and the temporary
path does not survive. -/
theorem c7_tempfile_deleted (decode : List ℕ → Except String NDArray)
    (data : List ℕ) (fresh : String) (fs : List String)
    (hfresh : fresh ∉ fs) :
    (load_nifti_bytes decode data fresh fs).2 = fs ∧
    fresh ∉ (load_nifti_bytes decode data fresh fs).2 := by
  have h2 : (load_nifti_bytes decode data fresh fs).2 = fs := by
    simp [load_nifti_bytes]
  exact ⟨h2, by rw [h2]; exact hfresh⟩

/-- Witness for C7, on a succeeding and on a failing decode. -/
theorem c7_tempfile_deleted_witness :
    (load_nifti_bytes (fun _ => .ok ⟨[2, 2, 2], List.replicate 8 0⟩)
        [] "tmp_a" ["other"]).2 = ["other"] ∧
    (load_nifti_bytes (fun _ => .error msgBadShape) [] "tmp_a" ["other"]).2 = ["other"] :=
  ⟨(c7_tempfile_deleted _ _ _ _ (by decide)).1,
   (c7_tempfile_deleted _ _ _ _ (by decide)).1⟩

/-- C8: with a loaded model, an upload whose lowercased name ends in none
of `.png`, `.jpg`, `.jpeg`, `.nii`, `.nii.gz` is answered with HTTP 400 and
the explanatory detail; no processing is attempted (the outcome is the same
for every payload and every codec, and the filesystem is untouched). -/
theorem c8_invalid_extension (net : Mat → Mat)
    (decodeImage : List ℕ → Except String GrayImage)
    (decodeNifti : List ℕ → Except String NDArray)
    (filename : String) (data : List ℕ) (fresh : String) (fs : List String)
    (h1 : endsWithLower filename extPng = false)
    (h2 : endsWithLower filename extJpg = false)
    (h3 : endsWithLower filename extJpeg = false)
    (h4 : endsWithLower filename extNii = false)
    (h5 : endsWithLower filename extNiiGz = false) :
    (predict_slice (some net) decodeImage decodeNifti filename data fresh fs).1 =
      .error ⟨400, msgInvalidType⟩ ∧
    (predict_slice (some net) decodeImage decodeNifti filename data fresh fs).2 = fs := by
  constructor <;> simp [predict_slice, h1, h2, h3, h4, h5]

/-- Witness for C8 at the upload name `doc.txt`. -/
theorem c8_invalid_extension_witness :
    (predict_slice (some (fun _ => [[1]])) (fun _ => .error msgBadShape)
        (fun _ => .error msgBadShape) "doc.txt" [] "tmp_b" []).1 =
      .error ⟨400, msgInvalidType⟩ :=
  (c8_invalid_extension _ _ _ _ _ _ _ (by decide) (by decide) (by decide)
    (by decide) (by decide)).1

/-- C9 counterexample: a degenerate 4-D array with a singleton LEADING
dimension, of shape `(1, 2, 2, 1)`, is squeezed to shape `(2, 2)` — the
loader removed both singleton axes, so the returned array is 2-D, not the
3-D array the claim promises. -/
theorem c9_counterexample :
    (load_nifti_bytes (fun _ => .ok ⟨[1, 2, 2, 1], [1, 2, 3, 4]⟩) [] "tmp_c" []).1 =
      .ok ⟨[2, 2], [1, 2, 3, 4]⟩ ∧
    ¬ (([2, 2] : List ℕ).length = 3) := by
  exact ⟨rfl, by decide⟩

/-- C9 (amended): on a decoded 4-D array the loader applies `np.squeeze`,
which removes every axis of extent 1 (not only a leading or trailing one);
when exactly one of the four dimensions is a singleton the result is 3-D
with the row-major data unchanged. -/
theorem c9_squeeze_all_singletons (decode : List ℕ → Except String NDArray)
    (data : List ℕ) (fresh : String) (fs : List String) (arr : NDArray)
    (hdec : decode data = .ok arr) (h4 : arr.shape.length = 4) :
    (load_nifti_bytes decode data fresh fs).1 =
      .ok ⟨arr.shape.filter (fun n => n != 1), arr.data⟩ ∧
    (arr.shape.count 1 = 1 → (arr.shape.filter (fun n => n != 1)).length = 3) := by
  constructor
  · simp [load_nifti_bytes, hdec, h4, NDArray.squeeze]
  · intro hcount
    rw [length_filter_ne_one, h4, hcount]

/-- Witness for C9 (amended) at a `(2, 2, 2, 1)` array. -/
theorem c9_squeeze_all_singletons_witness :
    (load_nifti_bytes (fun _ => .ok ⟨[2, 2, 2, 1], List.replicate 8 0⟩)
        [] "tmp_d" []).1 =
      .ok ⟨([2, 2, 2, 1] : List ℕ).filter (fun n => n != 1), List.replicate 8 0⟩ ∧
    (([2, 2, 2, 1] : List ℕ).filter (fun n => n != 1)).length = 3 :=
  ⟨(c9_squeeze_all_singletons (fun _ => .ok ⟨[2, 2, 2, 1], List.replicate 8 0⟩)
      [] "tmp_d" [] ⟨[2, 2, 2, 1], List.replicate 8 0⟩ rfl (by decide)).1,
   (c9_squeeze_all_singletons (fun _ => .ok ⟨[2, 2, 2, 1], List.replicate 8 0⟩)
      [] "tmp_d" [] ⟨[2, 2, 2, 1], List.replicate 8 0⟩ rfl (by decide)).2 (by decide)⟩

/-- C1: for every 2-D input slice, the mask `run_model` returns has exactly
`h` rows of `w` entries each — the `original_shape = (h, w)` recorded
before any resizing, never the model's internal 224×224 resolution — and
every entry is exclusively `0` or `1` (the 0.5-threshold produces `{0,1}`
and the NEAREST resize only copies pixels). -/
theorem c1_run_model_mask_shape_binary (net : Mat → Mat) (slice_array : Mat)
    (h w : ℕ) :
    (run_model net slice_array h w).length = h ∧
    ∀ row ∈ run_model net slice_array h w, row.length = w ∧
      ∀ x ∈ row, x = 0 ∨ x = 1 := by
  constructor
  · simp [run_model, resizeNearest]
  · intro row hrow
    simp only [run_model, resizeNearest, List.mem_map, List.mem_range] at hrow
    obtain ⟨i, _, hrow⟩ := hrow
    subst hrow
    refine ⟨by simp, ?_⟩
    intro x hx
    simp only [List.mem_map, List.mem_range] at hx
    obtain ⟨j, _, hx⟩ := hx
    subst hx
    exact thresholdMask_pix _ _ _

/-- Witness for C1 with a constant network and requested shape 2×2. -/
theorem c1_run_model_mask_shape_binary_witness :
    (run_model (fun _ => [[1]]) [[(0 : ℚ)]] 2 2).length = 2 ∧
    ([1, 1] : List ℚ).length = 2 ∧ ((1 : ℚ) = 0 ∨ (1 : ℚ) = 1) :=
  ⟨(c1_run_model_mask_shape_binary (fun _ => [[1]]) [[(0 : ℚ)]] 2 2).1,
   ((c1_run_model_mask_shape_binary (fun _ => [[1]]) [[(0 : ℚ)]] 2 2).2
      [1, 1] (by decide)).1,
   ((c1_run_model_mask_shape_binary (fun _ => [[1]]) [[(0 : ℚ)]] 2 2).2
      [1, 1] (by decide)).2 1 (by decide)⟩

/-- C4 counterexample: on the 2-D image path a flat (constant-valued) input
is NOT mapped to an all-zero output — the constant image `[[128]]`
normalizes to `[[128/255]]`, refuting the claim's "all-zero … for both the
volumetric path and the 2-D image path". -/
theorem c4_counterexample :
    ∃ y ∈ flat2 (normalize2D [[128]]), y ≠ 0 := by
  refine ⟨(128 : ℚ) / 255, ?_, by norm_num⟩
  norm_num [flat2, normalize2D]

/-- C4 (amended): a flat VOLUMETRIC input normalizes to all zeros; a flat
2-D image normalizes to the constant `value / 255` (all-equal, zero only
for value 0); neither path can produce NaN/Inf (the volumetric denominator
is strictly positive, the 2-D divisor is the constant 255); and the
normalizer's output always lies within [0, 1] (on the 2-D path for 8-bit
pixels ≤ 255). -/
theorem c4_flat_normalization (v : Vol) (c : ℚ) (img : GrayImage) (g : ℕ) :
    ((∀ x ∈ flat3 v, x = c) → ∀ y ∈ flat3 (normalize_volume v), y = 0) ∧
    (∀ y ∈ flat3 (normalize_volume v), 0 ≤ y ∧ y ≤ 1) ∧
    0 < volMax (clipVol v) - volMin (clipVol v) + epsQ ∧
    ((∀ p ∈ flat2 img, p = g) → ∀ y ∈ flat2 (normalize2D img), y = (g : ℚ) / 255) ∧
    ((∀ p ∈ flat2 img, p ≤ 255) → ∀ y ∈ flat2 (normalize2D img), 0 ≤ y ∧ y ≤ 1) := by
  have heps : (0 : ℚ) < epsQ := by norm_num [epsQ]
  have hflat : flat3 (normalize_volume v) =
      (flat3 (clipVol v)).map (fun z =>
        (z - volMin (clipVol v)) / (volMax (clipVol v) - volMin (clipVol v) + epsQ)) := by
    simp only [normalize_volume]
    exact flat3_map3 _ _
  have hdenom : 0 < volMax (clipVol v) - volMin (clipVol v) + epsQ := by
    cases hl : flat3 (clipVol v) with
    | nil =>
        simp only [volMax, volMin, hl, listMax, listMin]
        linarith
    | cons z zs =>
        have h1 : volMin (clipVol v) ≤ z := by
          simpa [volMin, hl] using listMin_le_mem (z :: zs) z (List.mem_cons_self z zs)
        have h2 : z ≤ volMax (clipVol v) := by
          simpa [volMax, hl] using mem_le_listMax (z :: zs) z (List.mem_cons_self z zs)
        linarith
  have hflat2 : flat2 (normalize2D img) = (flat2 img).map (fun (p : ℕ) => (p : ℚ) / 255) := by
    simp only [normalize2D]
    exact flat2_map _ _
  refine ⟨?_, ?_, hdenom, ?_, ?_⟩
  · intro hc y hy
    rw [hflat] at hy
    obtain ⟨z, hz, rfl⟩ := List.mem_map.mp hy
    have hclip : flat3 (clipVol v) = (flat3 v).map clipHU := by
      simp only [clipVol]
      exact flat3_map3 _ _
    have hzc : z = clipHU c := by
      rw [hclip] at hz
      obtain ⟨x, hx, rfl⟩ := List.mem_map.mp hz
      rw [hc x hx]
    have hall : ∀ u ∈ flat3 (clipVol v), u = clipHU c := by
      intro u hu
      rw [hclip] at hu
      obtain ⟨x, hx, rfl⟩ := List.mem_map.mp hu
      rw [hc x hx]
    have hne : flat3 (clipVol v) ≠ [] := List.ne_nil_of_mem hz
    have hmin : volMin (clipVol v) = clipHU c := listMin_const _ _ hne hall
    rw [hzc, hmin, sub_self, zero_div]
  · intro y hy
    rw [hflat] at hy
    obtain ⟨z, hz, rfl⟩ := List.mem_map.mp hy
    have h1 : volMin (clipVol v) ≤ z := listMin_le_mem _ z hz
    have h2 : z ≤ volMax (clipVol v) := mem_le_listMax _ z hz
    constructor
    · exact div_nonneg (by linarith) (le_of_lt hdenom)
    · rw [div_le_one hdenom]
      linarith
  · intro hc y hy
    rw [hflat2] at hy
    obtain ⟨p, hp, rfl⟩ := List.mem_map.mp hy
    rw [hc p hp]
  · intro hc y hy
    rw [hflat2] at hy
    obtain ⟨p, hp, rfl⟩ := List.mem_map.mp hy
    constructor
    · exact div_nonneg (Nat.cast_nonneg p) (by norm_num)
    · rw [div_le_one (by norm_num)]
      exact_mod_cast hc p hp

/-- Witness for C4 at the flat volume `[[[5]]]` and flat image `[[128]]`. -/
theorem c4_flat_normalization_witness :
    (∀ y ∈ flat3 (normalize_volume [[[ (5 : ℚ) ]]]), y = 0) ∧
    (∀ y ∈ flat2 (normalize2D [[128]]), y = (128 : ℚ) / 255) :=
  ⟨(c4_flat_normalization [[[ (5 : ℚ) ]]] 5 [[128]] 128).1 (by decide),
   (c4_flat_normalization [[[ (5 : ℚ) ]]] 5 [[128]] 128).2.2.2.1 (by decide)⟩

/-- C5: at every in-range position, the composited overlay pixel equals the
fixed highlight color (255, 0, 0) if and only if the mask value there is 1;
everywhere else it equals the channel-expanded (grayscale replicated to 3
channels) display pixel, unchanged. -/
theorem c5_overlay_pixel (gray : GrayImage) (mask : Mat) (i j : ℕ) (g : ℕ)
    (mv : ℚ) (hg : get2 gray i j = some g) (hm : get2 mask i j = some mv) :
    get2 (compositeOverlay gray mask) i j =
      some (if mv = 1 then (255, 0, 0) else (g, g, g)) ∧
    (get2 (compositeOverlay gray mask) i j = some (255, 0, 0) ↔ mv = 1) := by
  obtain ⟨grow, hgi, hgj⟩ : ∃ grow, gray[i]? = some grow ∧ grow[j]? = some g := by
    simpa [get2, Option.bind_eq_some] using hg
  obtain ⟨mrow, hmi, hmj⟩ : ∃ mrow, mask[i]? = some mrow ∧ mrow[j]? = some mv := by
    simpa [get2, Option.bind_eq_some] using hm
  have hi : i < gray.length := by
    by_contra hlt
    rw [List.getElem?_eq_none (Nat.le_of_not_lt hlt)] at hgi
    exact Option.noConfusion hgi
  have hj : j < grow.length := by
    by_contra hlt
    rw [List.getElem?_eq_none (Nat.le_of_not_lt hlt)] at hgj
    exact Option.noConfusion hgj
  have hmain : get2 (compositeOverlay gray mask) i j =
      some (if mv = 1 then (255, 0, 0) else (g, g, g)) := by
    simp only [get2, compositeOverlay, List.getElem?_map]
    rw [List.getElem?_range hi]
    simp only [Option.map_some', Option.some_bind, List.getElem?_map, hgi,
      Option.getD_some]
    rw [List.getElem?_range hj]
    simp [hgj, hmi, hmj]
  refine ⟨hmain, ?_, fun h1 => by rw [hmain, if_pos h1]⟩
  intro hred
  by_contra hne
  rw [hmain, if_neg hne] at hred
  have hinj := Option.some.inj hred
  simp only [Prod.mk.injEq] at hinj
  omega

/-- Witness for C5 at gray `[[7, 9]]` and mask `[[1, 0]]`. -/
theorem c5_overlay_pixel_witness :
    get2 (compositeOverlay [[7, 9]] [[1, 0]]) 0 0 =
      some (if (1 : ℚ) = 1 then (255, 0, 0) else (7, 7, 7)) ∧
    (get2 (compositeOverlay [[7, 9]] [[1, 0]]) 0 0 = some (255, 0, 0) ↔ (1 : ℚ) = 1) :=
  c5_overlay_pixel [[7, 9]] [[1, 0]] 0 0 7 1 (by decide) (by decide)

/-- The selected slice of the demonstration volume `[[[-1000, 0, 400]]]`:
its middle voxel (raw value 0) is scaled by the whole volume's clipped
range `[-1000, 400]`, giving `1000 / (1400 + 1e-8)`. -/
theorem midSlice_demo_value :
    flat2 (midSlice (normalize_volume [[[ -1000, 0, 400 ]]])) =
      [(100000000000 : ℚ) / 140000000001] := by
  norm_num [flat2, midSlice, normalize_volume, clipVol, map3, volMin, volMax,
    flat3, listMin, listMax, clipHU, epsQ, middle_slice_index, volShape2]

/-- C10: in the volumetric path the whole volume is normalized BEFORE slice
selection — the slice handed to inference is exactly
`normalize_volume(volume)[:, :, depth // 2]` — so its values are scaled by
the whole volume's clipped min and max rather than the slice's own range;
for the volume `[[[-1000, 0, 400]]]` (middle voxel of raw value 0) the
selected slice lies in a strict sub-interval of [0, 1], which per-slice
re-normalization could not produce. -/
theorem c10_normalize_before_slice :
    (∀ (net : Mat → Mat) (arr : NDArray) (r c d : ℕ), arr.shape = [r, c, d] →
      pipelineVol net arr =
        .ok (.volumetric
          ((midSlice (normalize_volume (reshape3 c d arr.data))).map
            (fun row => row.map toUint8))
          (run_model net (midSlice (normalize_volume (reshape3 c d arr.data)))
            (midSlice (normalize_volume (reshape3 c d arr.data))).length
            ((midSlice (normalize_volume (reshape3 c d arr.data))).headD []).length)
          (compositeOverlay
            ((midSlice (normalize_volume (reshape3 c d arr.data))).map
              (fun row => row.map toUint8))
            (run_model net (midSlice (normalize_volume (reshape3 c d arr.data)))
              (midSlice (normalize_volume (reshape3 c d arr.data))).length
              ((midSlice (normalize_volume (reshape3 c d arr.data))).headD []).length)))) ∧
    (∀ y ∈ flat2 (midSlice (normalize_volume [[[ -1000, 0, 400 ]]])),
      0 < y ∧ y < 1) := by
  constructor
  · rintro net ⟨shape, data⟩ r c d hshape
    cases hshape
    rfl
  · intro y hy
    rw [midSlice_demo_value] at hy
    rw [List.mem_singleton] at hy
    subst hy
    constructor <;> norm_num

/-- Witness for C10 at the `(1, 1, 3)` volume `[-1000, 0, 400]`. -/
theorem c10_normalize_before_slice_witness :
    pipelineVol (fun _ => [[1]]) ⟨[1, 1, 3], [-1000, 0, 400]⟩ =
      .ok (.volumetric
        ((midSlice (normalize_volume (reshape3 1 3 [-1000, 0, 400]))).map
          (fun row => row.map toUint8))
        (run_model (fun _ => [[1]])
          (midSlice (normalize_volume (reshape3 1 3 [-1000, 0, 400])))
          (midSlice (normalize_volume (reshape3 1 3 [-1000, 0, 400]))).length
          ((midSlice (normalize_volume (reshape3 1 3 [-1000, 0, 400]))).headD []).length)
        (compositeOverlay
          ((midSlice (normalize_volume (reshape3 1 3 [-1000, 0, 400]))).map
            (fun row => row.map toUint8))
          (run_model (fun _ => [[1]])
            (midSlice (normalize_volume (reshape3 1 3 [-1000, 0, 400])))
            (midSlice (normalize_volume (reshape3 1 3 [-1000, 0, 400]))).length
            ((midSlice (normalize_volume (reshape3 1 3 [-1000, 0, 400]))).headD []).length))) ∧
    (0 < (100000000000 : ℚ) / 140000000001 ∧ (100000000000 : ℚ) / 140000000001 < 1) :=
  ⟨c10_normalize_before_slice.1 (fun _ => [[1]]) ⟨[1, 1, 3], [-1000, 0, 400]⟩ 1 1 3 rfl,
   c10_normalize_before_slice.2 ((100000000000 : ℚ) / 140000000001)
     (by rw [midSlice_demo_value]; exact List.mem_singleton.mpr rfl)⟩

end LiverSeg
